import Mathlib

/-!
Verification of the client-record management feature (React UI +
json-server mock backend).  The data model and operations below are
shallow embeddings of the JavaScript sources:

* `softDeleteHandler` embeds the custom DELETE route of
  `frontend_client_app/server.js` (lowdb `find({id}).assign(...).write()`
  followed by 204, or 404 when no client matches).
* `getClientById` embeds the read path (`json-server` GET /clients/:id as
  consumed by `services/api.js` `getClientById`): the first record whose
  `id` matches, or none.
* `createSubmit` / `updateSubmit` embed `ClientFormPage.handleSubmit`
  (required-field check, timestamp stamping) combined with the mock
  backend's POST append / PATCH merge.
* `getClients` / `getReferenceData` embed the fetch wrappers of
  `services/api.js`, including their catch branches.
* `getDisplayName` embeds the display-name lookup of
  `ClientDetailPage.js`.
-/

namespace ClientApp

/-- A client record as stored in `db.json`: the fields written by the form
plus the timestamps and the soft-delete marker.  `deleted_at = none`
models the field being absent/undefined. -/
structure Client where
  id : String
  first_name : String
  last_name : String
  date_of_birth : String
  email : String
  phone : String
  status_code : String
  primary_language_code : String
  pronoun_code : String
  sex : String
  interpreter_needed : Bool
  created_at : String
  updated_at : String
  deleted_at : Option String
  deriving Repr, DecidableEq

/-- lowdb `find({ id: clientId })` predicate. -/
def idMatches (cid : String) (c : Client) : Bool :=
  c.id == cid

/-- GET /clients/:id — json-server returns the first record with the
matching id; `api.js getClientById` returns it, or null on 404. -/
def getClientById (db : List Client) (cid : String) : Option Client :=
  db.find? (idMatches cid)

/-- The soft-delete mutation applied to the found record:
`assign({ status_code: 'deleted', deleted_at: new Date().toISOString() })`
from `server.js`. -/
def softDeleteRecord (now : String) (c : Client) : Client :=
  { c with status_code := "deleted", deleted_at := some now }

/-- lowdb `find({id}).assign(...)`: mutate the first matching record in
place, leave everything else untouched. -/
def updateFirst (cid : String) (g : Client → Client) : List Client → List Client
  | [] => []
  | c :: rest =>
    if idMatches cid c then g c :: rest else c :: updateFirst cid g rest

/-- The custom DELETE /api/v1/clients/:id route of `server.js`: if a
client with the id exists, assign the deleted status and timestamp and
respond 204; otherwise respond 404 (CLIENT_NOT_FOUND). Returns the HTTP
status and the database after the request. -/
def softDeleteHandler (db : List Client) (cid now : String) : Nat × List Client :=
  if (db.find? (idMatches cid)).isSome then
    (204, updateFirst cid (softDeleteRecord now) db)
  else
    (404, db)

theorem idMatches_updateFirst (cid : String) (g : Client → Client)
    (hg : ∀ c, (g c).id = c.id) (c : Client) :
    idMatches cid (g c) = idMatches cid c := by
  simp [idMatches, hg]

theorem find?_updateFirst (cid : String) (g : Client → Client)
    (hg : ∀ c, (g c).id = c.id) (db : List Client) (c : Client)
    (h : db.find? (idMatches cid) = some c) :
    (updateFirst cid g db).find? (idMatches cid) = some (g c) := by
  induction db with
  | nil => simp [List.find?] at h
  | cons a rest ih =>
    by_cases hm : idMatches cid a
    · rw [List.find?_cons_of_pos _ hm] at h
      cases h
      rw [updateFirst, if_pos hm]
      exact List.find?_cons_of_pos _ (by rw [idMatches_updateFirst cid g hg]; exact hm)
    · rw [List.find?_cons_of_neg _ hm] at h
      rw [updateFirst, if_neg hm, List.find?_cons_of_neg _ hm]
      exact ih h

theorem updateFirst_updateFirst (cid : String) (g : Client → Client)
    (hg : ∀ c, (g c).id = c.id) (hgg : ∀ c, g (g c) = g c) (db : List Client) :
    updateFirst cid g (updateFirst cid g db) = updateFirst cid g db := by
  induction db with
  | nil => rfl
  | cons a rest ih =>
    by_cases hm : idMatches cid a
    · rw [updateFirst, if_pos hm, updateFirst,
        if_pos (by rw [idMatches_updateFirst cid g hg]; exact hm), hgg]
    · rw [updateFirst, if_neg hm, updateFirst, if_neg hm, ih]

/-- A concrete client record used to exercise the operations. -/
def sampleClient : Client :=
  { id := "c1"
    first_name := "Jane"
    last_name := "Smith"
    date_of_birth := "1985-05-15"
    email := "jane.smith@example.com"
    phone := "+64 21 123 4567"
    status_code := "active"
    primary_language_code := "en-NZ"
    pronoun_code := "she-her"
    sex := "female"
    interpreter_needed := false
    created_at := "2024-01-01T00:00:00Z"
    updated_at := "2024-01-01T00:00:00Z"
    deleted_at := none }

/-- C1: soft delete of an existing id responds 204, the record is still
returned by get(id) afterwards with `status_code = "deleted"`, a non-null
`deleted_at`, and every other field unchanged; an unknown id responds
404. -/
theorem softDelete_spec (db db2 : List Client) (cid cid2 now now2 : String)
    (c : Client)
    (h : getClientById db cid = some c)
    (h2 : getClientById db2 cid2 = none) :
    (softDeleteHandler db cid now).1 = 204 ∧
    getClientById (softDeleteHandler db cid now).2 cid = some (softDeleteRecord now c) ∧
    (softDeleteRecord now c).status_code = "deleted" ∧
    (softDeleteRecord now c).deleted_at = some now ∧
    (softDeleteRecord now c).id = c.id ∧
    (softDeleteRecord now c).first_name = c.first_name ∧
    (softDeleteRecord now c).last_name = c.last_name ∧
    (softDeleteRecord now c).date_of_birth = c.date_of_birth ∧
    (softDeleteRecord now c).email = c.email ∧
    (softDeleteRecord now c).phone = c.phone ∧
    (softDeleteRecord now c).primary_language_code = c.primary_language_code ∧
    (softDeleteRecord now c).pronoun_code = c.pronoun_code ∧
    (softDeleteRecord now c).sex = c.sex ∧
    (softDeleteRecord now c).interpreter_needed = c.interpreter_needed ∧
    (softDeleteRecord now c).created_at = c.created_at ∧
    (softDeleteRecord now c).updated_at = c.updated_at ∧
    (softDeleteHandler db2 cid2 now2).1 = 404 := by
  unfold getClientById at h h2
  have hs : (db.find? (idMatches cid)).isSome := by rw [h]; rfl
  have hs2 : ¬ (db2.find? (idMatches cid2)).isSome := by rw [h2]; simp
  refine ⟨?_, ?_, rfl, rfl, rfl, rfl, rfl, rfl, rfl, rfl, rfl, rfl, rfl, rfl, rfl, rfl, ?_⟩
  · rw [softDeleteHandler, if_pos hs]
  · rw [softDeleteHandler, if_pos hs]
    exact find?_updateFirst cid (softDeleteRecord now) (fun _ => rfl) db c h
  · rw [softDeleteHandler, if_neg hs2]

/-- C1 witness: the theorem applied to a one-record store and an empty
store. -/
theorem softDelete_spec_witness :
    (softDeleteHandler [sampleClient] "c1" "2026-10-12T00:00:00Z").1 = 204 ∧
    getClientById (softDeleteHandler [sampleClient] "c1" "2026-10-12T00:00:00Z").2 "c1" =
      some (softDeleteRecord "2026-10-12T00:00:00Z" sampleClient) ∧
    (softDeleteRecord "2026-10-12T00:00:00Z" sampleClient).status_code = "deleted" ∧
    (softDeleteRecord "2026-10-12T00:00:00Z" sampleClient).deleted_at = some "2026-10-12T00:00:00Z" ∧
    (softDeleteRecord "2026-10-12T00:00:00Z" sampleClient).id = sampleClient.id ∧
    (softDeleteRecord "2026-10-12T00:00:00Z" sampleClient).first_name = sampleClient.first_name ∧
    (softDeleteRecord "2026-10-12T00:00:00Z" sampleClient).last_name = sampleClient.last_name ∧
    (softDeleteRecord "2026-10-12T00:00:00Z" sampleClient).date_of_birth = sampleClient.date_of_birth ∧
    (softDeleteRecord "2026-10-12T00:00:00Z" sampleClient).email = sampleClient.email ∧
    (softDeleteRecord "2026-10-12T00:00:00Z" sampleClient).phone = sampleClient.phone ∧
    (softDeleteRecord "2026-10-12T00:00:00Z" sampleClient).primary_language_code = sampleClient.primary_language_code ∧
    (softDeleteRecord "2026-10-12T00:00:00Z" sampleClient).pronoun_code = sampleClient.pronoun_code ∧
    (softDeleteRecord "2026-10-12T00:00:00Z" sampleClient).sex = sampleClient.sex ∧
    (softDeleteRecord "2026-10-12T00:00:00Z" sampleClient).interpreter_needed = sampleClient.interpreter_needed ∧
    (softDeleteRecord "2026-10-12T00:00:00Z" sampleClient).created_at = sampleClient.created_at ∧
    (softDeleteRecord "2026-10-12T00:00:00Z" sampleClient).updated_at = sampleClient.updated_at ∧
    (softDeleteHandler [] "missing" "2026-10-12T00:00:00Z").1 = 404 :=
  softDelete_spec [sampleClient] [] "c1" "missing" "2026-10-12T00:00:00Z"
    "2026-10-12T00:00:00Z" sampleClient (by decide) (by decide)

/-- C2 counterexample: deleting an already-deleted record at a later
time changes the record (its `deleted_at` is refreshed), so two
applications do not leave the state of one application. -/
theorem softDelete_not_idempotent_counterexample :
    (softDeleteHandler
        (softDeleteHandler [sampleClient] "c1" "2026-01-01T00:00:00Z").2
        "c1" "2026-02-02T00:00:00Z").2 ≠
      (softDeleteHandler [sampleClient] "c1" "2026-01-01T00:00:00Z").2 := by
  decide

/-- C2 amended: re-deleting an already-deleted record succeeds with 204
and changes nothing except `deleted_at`, which is refreshed to the time
of the second call; in particular two applications with the same
timestamp leave exactly the state of one application. -/
theorem softDelete_redelete (db : List Client) (cid now : String) (c : Client)
    (h : getClientById db cid = some c)
    (hdel : c.status_code = "deleted") :
    (softDeleteHandler db cid now).1 = 204 ∧
    getClientById (softDeleteHandler db cid now).2 cid =
      some { c with deleted_at := some now } ∧
    (softDeleteHandler (softDeleteHandler db cid now).2 cid now).2 =
      (softDeleteHandler db cid now).2 := by
  unfold getClientById at h
  have hs : (db.find? (idMatches cid)).isSome := by rw [h]; rfl
  have hfind := find?_updateFirst cid (softDeleteRecord now) (fun _ => rfl) db c h
  refine ⟨?_, ?_, ?_⟩
  · rw [softDeleteHandler, if_pos hs]
  · rw [softDeleteHandler, if_pos hs]
    unfold getClientById
    rw [hfind]
    cases c
    simp only [softDeleteRecord] at hdel ⊢
    simp [hdel]
  · have hdb : (softDeleteHandler db cid now).2 = updateFirst cid (softDeleteRecord now) db := by
      rw [softDeleteHandler, if_pos hs]
    have hs2 : ((updateFirst cid (softDeleteRecord now) db).find? (idMatches cid)).isSome := by
      rw [hfind]; rfl
    rw [hdb, softDeleteHandler, if_pos hs2]
    exact updateFirst_updateFirst cid (softDeleteRecord now) (fun _ => rfl) (fun _ => rfl) db

/-- A record already in the soft-deleted state. -/
def deletedClient : Client :=
  { sampleClient with status_code := "deleted", deleted_at := some "2026-01-01T00:00:00Z" }

/-- C2 witness: the amended theorem applied to a store holding one
already-deleted record. -/
theorem softDelete_redelete_witness :
    (softDeleteHandler [deletedClient] "c1" "2026-02-02T00:00:00Z").1 = 204 ∧
    getClientById (softDeleteHandler [deletedClient] "c1" "2026-02-02T00:00:00Z").2 "c1" =
      some { deletedClient with deleted_at := some "2026-02-02T00:00:00Z" } ∧
    (softDeleteHandler
        (softDeleteHandler [deletedClient] "c1" "2026-02-02T00:00:00Z").2
        "c1" "2026-02-02T00:00:00Z").2 =
      (softDeleteHandler [deletedClient] "c1" "2026-02-02T00:00:00Z").2 :=
  softDelete_redelete [deletedClient] "c1" "2026-02-02T00:00:00Z" deletedClient
    (by decide) (by decide)

/-! ## Form submission (`ClientFormPage.handleSubmit`) and the mock
backend's create / update -/

/-- The state of the create/edit form (`initialFormState` of
`ClientFormPage.js`). -/
structure FormData where
  first_name : String
  last_name : String
  date_of_birth : String
  email : String
  phone : String
  status_code : String
  primary_language_code : String
  pronoun_code : String
  sex : String
  interpreter_needed : Bool
  deriving Repr, DecidableEq

/-- The only validation `handleSubmit` performs:
`!formData.first_name || !formData.last_name || !formData.date_of_birth
|| !formData.status_code` (a JS string is falsy exactly when empty). -/
def requiredMissing (f : FormData) : Bool :=
  f.first_name == "" || f.last_name == "" || f.date_of_birth == "" || f.status_code == ""

/-- The single error message `handleSubmit` sets when the check fails. -/
def requiredErrorMsg : String :=
  "Required fields are missing (First Name, Last Name, DOB, Status)."

/-- `handleSubmit` validation result: one fixed message, or pass. -/
def validateForm (f : FormData) : Option String :=
  if requiredMissing f then some requiredErrorMsg else none

/-- Largest id length present in the store, used to build a fresh id. -/
def maxIdLength (db : List Client) : Nat :=
  db.foldr (fun c m => max c.id.length m) 0

/-- Modelled from the spec: the backend's id assignment on POST (the
json-server router is a library, not part of src/); the spec requires
only that create "assigns a fresh unique identifier", so the model picks
a string longer than every id already in the store. -/
def freshId (db : List Client) : String :=
  String.mk (List.replicate (maxIdLength db + 1) 'x')

/-- The record built from `submissionData` in create mode
(`created_at = updated_at = now`, no `deleted_at` field) with the
backend-assigned id, appended to the collection by POST. -/
def newClient (db : List Client) (f : FormData) (now : String) : Client :=
  { id := freshId db
    first_name := f.first_name
    last_name := f.last_name
    date_of_birth := f.date_of_birth
    email := f.email
    phone := f.phone
    status_code := f.status_code
    primary_language_code := f.primary_language_code
    pronoun_code := f.pronoun_code
    sex := f.sex
    interpreter_needed := f.interpreter_needed
    created_at := now
    updated_at := now
    deleted_at := none }

/-- `handleSubmit` in create mode followed by the mock backend's POST:
reject when a required field is blank, otherwise stamp
`created_at = updated_at = now` and persist the new record. -/
def createSubmit (db : List Client) (f : FormData) (now : String) :
    Except String (Client × List Client) :=
  if requiredMissing f then Except.error requiredErrorMsg
  else Except.ok (newClient db f now, db ++ [newClient db f now])

/-- PATCH merge: the edit-mode `submissionData` (all form fields plus
`updated_at = now`) merged into the stored record; `id`, `created_at`
and `deleted_at` are not in the submission, so they are preserved. -/
def applyPatchForm (c : Client) (f : FormData) (now : String) : Client :=
  { c with
    first_name := f.first_name
    last_name := f.last_name
    date_of_birth := f.date_of_birth
    email := f.email
    phone := f.phone
    status_code := f.status_code
    primary_language_code := f.primary_language_code
    pronoun_code := f.pronoun_code
    sex := f.sex
    interpreter_needed := f.interpreter_needed
    updated_at := now }

/-- `handleSubmit` in edit mode followed by the mock backend's PATCH:
reject when a required field is blank; otherwise merge the submission
into the first record with the matching id, or 404 when none exists. -/
def updateSubmit (db : List Client) (cid : String) (f : FormData) (now : String) :
    Except String (List Client) :=
  if requiredMissing f then Except.error requiredErrorMsg
  else if (db.find? (idMatches cid)).isSome then
    Except.ok (updateFirst cid (fun c => applyPatchForm c f now) db)
  else Except.error "CLIENT_NOT_FOUND"

/-- A form filled with the sample client's data. -/
def sampleForm : FormData :=
  { first_name := "Jane"
    last_name := "Smith"
    date_of_birth := "1985-05-15"
    email := "jane.smith@example.com"
    phone := "+64 21 123 4567"
    status_code := "active"
    primary_language_code := "en-NZ"
    pronoun_code := "she-her"
    sex := "female"
    interpreter_needed := false }

/-- C3 counterexample: soft delete is a successful mutation, yet the
record's `updated_at` keeps its old value instead of being refreshed to
the deletion time (the handler assigns only `status_code` and
`deleted_at`). -/
theorem softDelete_keeps_updated_at_counterexample :
    (getClientById (softDeleteHandler [sampleClient] "c1" "2026-10-12T00:00:00Z").2 "c1").map
        Client.updated_at = some "2024-01-01T00:00:00Z" ∧
      "2024-01-01T00:00:00Z" ≠ "2026-10-12T00:00:00Z" := by
  decide

/-- C3 amended: create stamps `created_at = updated_at = now`; an edit
submit refreshes `updated_at` and leaves `created_at` untouched (PATCH
merges only submitted fields); soft delete leaves both `created_at` and
`updated_at` unchanged, mutating only `status_code`/`deleted_at`. -/
theorem timestamp_policy
    (dbc : List Client) (fc : FormData) (nowc : String) (nc : Client) (dbc2 : List Client)
    (hc : createSubmit dbc fc nowc = Except.ok (nc, dbc2))
    (dbu : List Client) (cidu : String) (fu : FormData) (nowu : String) (cu : Client)
    (dbu2 : List Client)
    (hu : updateSubmit dbu cidu fu nowu = Except.ok dbu2)
    (hfu : getClientById dbu cidu = some cu)
    (dbd : List Client) (cidd nowd : String) (cd : Client)
    (hd : getClientById dbd cidd = some cd) :
    nc.created_at = nowc ∧ nc.updated_at = nowc ∧
    getClientById dbu2 cidu = some (applyPatchForm cu fu nowu) ∧
    (applyPatchForm cu fu nowu).created_at = cu.created_at ∧
    (applyPatchForm cu fu nowu).updated_at = nowu ∧
    getClientById (softDeleteHandler dbd cidd nowd).2 cidd = some (softDeleteRecord nowd cd) ∧
    (softDeleteRecord nowd cd).created_at = cd.created_at ∧
    (softDeleteRecord nowd cd).updated_at = cd.updated_at := by
  have hmc : requiredMissing fc = false := by
    by_contra hm'
    rw [Bool.not_eq_false] at hm'
    simp only [createSubmit, if_pos hm'] at hc
    exact Except.noConfusion hc
  simp only [createSubmit, hmc, Bool.false_eq_true, if_false] at hc
  have hnc : newClient dbc fc nowc = nc := congrArg Prod.fst (Except.ok.inj hc)
  have hmu : requiredMissing fu = false := by
    by_contra hm'
    rw [Bool.not_eq_false] at hm'
    simp only [updateSubmit, if_pos hm'] at hu
    exact Except.noConfusion hu
  unfold getClientById at hfu hd
  have hsu : (dbu.find? (idMatches cidu)).isSome := by rw [hfu]; rfl
  simp only [updateSubmit, hmu, Bool.false_eq_true, if_false, if_pos hsu] at hu
  have hdbu2 : updateFirst cidu (fun c => applyPatchForm c fu nowu) dbu = dbu2 :=
    Except.ok.inj hu
  have hsd : (dbd.find? (idMatches cidd)).isSome := by rw [hd]; rfl
  refine ⟨?_, ?_, ?_, rfl, rfl, ?_, rfl, rfl⟩
  · rw [← hnc]; rfl
  · rw [← hnc]; rfl
  · rw [← hdbu2]
    exact find?_updateFirst cidu (fun c => applyPatchForm c fu nowu) (fun _ => rfl) dbu cu hfu
  · rw [softDeleteHandler, if_pos hsd]
    exact find?_updateFirst cidd (softDeleteRecord nowd) (fun _ => rfl) dbd cd hd

/-- C3 witness: the amended timestamp policy applied to concrete create,
update and soft-delete calls. -/
theorem timestamp_policy_witness :
    (newClient [] sampleForm "2026-03-03T00:00:00Z").created_at = "2026-03-03T00:00:00Z" ∧
    (newClient [] sampleForm "2026-03-03T00:00:00Z").updated_at = "2026-03-03T00:00:00Z" ∧
    getClientById
        (updateFirst "c1" (fun c => applyPatchForm c sampleForm "2026-03-03T00:00:00Z")
          [sampleClient]) "c1" =
      some (applyPatchForm sampleClient sampleForm "2026-03-03T00:00:00Z") ∧
    (applyPatchForm sampleClient sampleForm "2026-03-03T00:00:00Z").created_at =
      sampleClient.created_at ∧
    (applyPatchForm sampleClient sampleForm "2026-03-03T00:00:00Z").updated_at =
      "2026-03-03T00:00:00Z" ∧
    getClientById (softDeleteHandler [sampleClient] "c1" "2026-03-03T00:00:00Z").2 "c1" =
      some (softDeleteRecord "2026-03-03T00:00:00Z" sampleClient) ∧
    (softDeleteRecord "2026-03-03T00:00:00Z" sampleClient).created_at =
      sampleClient.created_at ∧
    (softDeleteRecord "2026-03-03T00:00:00Z" sampleClient).updated_at =
      sampleClient.updated_at :=
  timestamp_policy [] sampleForm "2026-03-03T00:00:00Z"
    (newClient [] sampleForm "2026-03-03T00:00:00Z")
    ([] ++ [newClient [] sampleForm "2026-03-03T00:00:00Z"]) rfl
    [sampleClient] "c1" sampleForm "2026-03-03T00:00:00Z" sampleClient
    (updateFirst "c1" (fun c => applyPatchForm c sampleForm "2026-03-03T00:00:00Z")
      [sampleClient]) rfl (by decide)
    [sampleClient] "c1" "2026-03-03T00:00:00Z" sampleClient (by decide)

theorem length_le_maxIdLength (db : List Client) (c : Client) (hc : c ∈ db) :
    c.id.length ≤ maxIdLength db := by
  induction db with
  | nil => cases hc
  | cons a rest ih =>
    rw [List.mem_cons] at hc
    rcases hc with rfl | hc
    · exact le_max_left _ _
    · exact le_trans (ih hc) (le_max_right _ _)

theorem freshId_length (db : List Client) : (freshId db).length = maxIdLength db + 1 := by
  show (List.replicate (maxIdLength db + 1) 'x').length = maxIdLength db + 1
  exact List.length_replicate _ _

theorem freshId_not_mem (db : List Client) (c : Client) (hc : c ∈ db) :
    freshId db ≠ c.id := by
  intro he
  have h1 := length_le_maxIdLength db c hc
  have h2 := freshId_length db
  rw [he] at h2
  omega

/-- C4: a successful create appends a record whose id is distinct from
every id already stored (and id-distinctness of the whole store is
preserved, so later creates stay distinct from it too), with
`created_at = updated_at` stamped with the creation time. -/
theorem create_fresh_id (db : List Client) (f : FormData) (now : String)
    (nc : Client) (db2 : List Client)
    (hc : createSubmit db f now = Except.ok (nc, db2))
    (hnd : (db.map Client.id).Nodup) :
    nc.id ∉ db.map Client.id ∧
    nc.created_at = nc.updated_at ∧
    db2 = db ++ [nc] ∧
    (db2.map Client.id).Nodup := by
  have hm : requiredMissing f = false := by
    by_contra hm'
    rw [Bool.not_eq_false] at hm'
    simp only [createSubmit, if_pos hm'] at hc
    exact Except.noConfusion hc
  simp only [createSubmit, hm, Bool.false_eq_true, if_false] at hc
  have hpair := Except.ok.inj hc
  have hnc : newClient db f now = nc := congrArg Prod.fst hpair
  have hdb2 : db ++ [newClient db f now] = db2 := congrArg Prod.snd hpair
  subst hnc
  subst hdb2
  have hmem : (newClient db f now).id ∉ db.map Client.id := by
    intro hmem
    rcases List.mem_map.mp hmem with ⟨c, hcmem, hcid⟩
    exact freshId_not_mem db c hcmem hcid.symm
  refine ⟨hmem, rfl, rfl, ?_⟩
  rw [List.map_append, List.nodup_append]
  refine ⟨hnd, List.nodup_singleton _, ?_⟩
  intro a ha hamem
  rw [List.map_singleton, List.mem_singleton] at hamem
  subst hamem
  exact hmem ha

/-- C4 witness: the theorem applied to a one-record store. -/
theorem create_fresh_id_witness :
    (newClient [sampleClient] sampleForm "2026-04-04T00:00:00Z").id ∉
      [sampleClient].map Client.id ∧
    (newClient [sampleClient] sampleForm "2026-04-04T00:00:00Z").created_at =
      (newClient [sampleClient] sampleForm "2026-04-04T00:00:00Z").updated_at ∧
    [sampleClient] ++ [newClient [sampleClient] sampleForm "2026-04-04T00:00:00Z"] =
      [sampleClient] ++ [newClient [sampleClient] sampleForm "2026-04-04T00:00:00Z"] ∧
    (([sampleClient] ++ [newClient [sampleClient] sampleForm "2026-04-04T00:00:00Z"]).map
        Client.id).Nodup :=
  create_fresh_id [sampleClient] sampleForm "2026-04-04T00:00:00Z"
    (newClient [sampleClient] sampleForm "2026-04-04T00:00:00Z")
    ([sampleClient] ++ [newClient [sampleClient] sampleForm "2026-04-04T00:00:00Z"])
    rfl (by decide)

/-- A submission whose date of birth lies in the future. -/
def futureForm : FormData :=
  { sampleForm with date_of_birth := "3000-01-01", email := "future@example.com" }

/-- A submission whose date of birth yields an age far above 120. -/
def ancientForm : FormData :=
  { sampleForm with date_of_birth := "1800-01-01", email := "ancient@example.com" }

/-- C5: the only check `handleSubmit` performs is the required-field
check, so a create whose date of birth is in the future (or yields an
age above 120) is accepted and the record is persisted unvalidated. -/
theorem create_accepts_invalid_dob :
    validateForm futureForm = none ∧
    createSubmit [] futureForm "2026-10-12T00:00:00Z" =
      Except.ok (newClient [] futureForm "2026-10-12T00:00:00Z",
        [] ++ [newClient [] futureForm "2026-10-12T00:00:00Z"]) ∧
    (newClient [] futureForm "2026-10-12T00:00:00Z").date_of_birth = "3000-01-01" ∧
    validateForm ancientForm = none ∧
    createSubmit [] ancientForm "2026-10-12T00:00:00Z" =
      Except.ok (newClient [] ancientForm "2026-10-12T00:00:00Z",
        [] ++ [newClient [] ancientForm "2026-10-12T00:00:00Z"]) ∧
    (newClient [] ancientForm "2026-10-12T00:00:00Z").date_of_birth = "1800-01-01" :=
  ⟨rfl, rfl, rfl, rfl, rfl, rfl⟩

/-- A submission whose email collides with an existing record. -/
def dupForm : FormData :=
  { sampleForm with email := "dup@example.com" }

/-- C6: no duplicate-email check exists anywhere in the code; a second
create with the same non-empty email succeeds and both records are
stored, and an update setting a record's email equal to another
record's email succeeds as well. -/
theorem create_accepts_duplicate_email :
    createSubmit [] dupForm "2026-05-05T00:00:00Z" =
      Except.ok (newClient [] dupForm "2026-05-05T00:00:00Z",
        [] ++ [newClient [] dupForm "2026-05-05T00:00:00Z"]) ∧
    createSubmit [newClient [] dupForm "2026-05-05T00:00:00Z"] dupForm
        "2026-05-06T00:00:00Z" =
      Except.ok
        (newClient [newClient [] dupForm "2026-05-05T00:00:00Z"] dupForm
          "2026-05-06T00:00:00Z",
        [newClient [] dupForm "2026-05-05T00:00:00Z"] ++
          [newClient [newClient [] dupForm "2026-05-05T00:00:00Z"] dupForm
            "2026-05-06T00:00:00Z"]) ∧
    (newClient [] dupForm "2026-05-05T00:00:00Z").email = "dup@example.com" ∧
    (newClient [newClient [] dupForm "2026-05-05T00:00:00Z"] dupForm
      "2026-05-06T00:00:00Z").email = "dup@example.com" ∧
    (newClient [] dupForm "2026-05-05T00:00:00Z").id ≠
      (newClient [newClient [] dupForm "2026-05-05T00:00:00Z"] dupForm
        "2026-05-06T00:00:00Z").id ∧
    updateSubmit [newClient [] dupForm "2026-05-05T00:00:00Z", sampleClient] "c1" dupForm
        "2026-05-07T00:00:00Z" =
      Except.ok
        (updateFirst "c1" (fun c => applyPatchForm c dupForm "2026-05-07T00:00:00Z")
          [newClient [] dupForm "2026-05-05T00:00:00Z", sampleClient]) ∧
    (applyPatchForm sampleClient dupForm "2026-05-07T00:00:00Z").email = "dup@example.com" := by
  refine ⟨rfl, rfl, rfl, rfl, ?_, rfl, rfl⟩
  decide

/-- A form missing two of the required fields. -/
def missingTwoForm : FormData :=
  { sampleForm with first_name := "", last_name := "" }

/-- A form missing exactly one required field. -/
def missingOneForm : FormData :=
  { sampleForm with first_name := "" }

/-- C7 counterexample: inputs with different sets of failing fields
produce the very same single fixed error message, so the error does not
enumerate the failing fields individually. -/
theorem single_message_counterexample :
    validateForm missingTwoForm = some requiredErrorMsg ∧
    validateForm missingOneForm = some requiredErrorMsg ∧
    validateForm missingTwoForm = validateForm missingOneForm := by
  decide

/-- C7 amended: whenever any required field (first name, last name,
date of birth, status) is blank, the submit is rejected with the single
fixed message naming the four required fields, regardless of which or
how many are blank; no per-field enumeration occurs. -/
theorem required_fields_single_message (db : List Client) (f : FormData) (now : String)
    (h : f.first_name = "" ∨ f.last_name = "" ∨ f.date_of_birth = "" ∨ f.status_code = "") :
    validateForm f = some requiredErrorMsg ∧
    createSubmit db f now = Except.error requiredErrorMsg := by
  have hm : requiredMissing f = true := by
    rcases h with h | h | h | h <;> simp [requiredMissing, h]
  constructor
  · rw [validateForm, if_pos hm]
  · rw [createSubmit, if_pos hm]

/-- C7 witness: the amended theorem applied to a form missing two
required fields. -/
theorem required_fields_single_message_witness :
    validateForm missingTwoForm = some requiredErrorMsg ∧
    createSubmit [] missingTwoForm "2026-06-06T00:00:00Z" = Except.error requiredErrorMsg :=
  required_fields_single_message [] missingTwoForm "2026-06-06T00:00:00Z" (Or.inl rfl)

/-! ## List pagination (`ClientListPage.js` and `api.js getClients`) -/

/-- `const ITEMS_PER_PAGE = 2;` from `ClientListPage.js`. -/
def ITEMS_PER_PAGE : Nat := 2

/-- The query parameters `fetchClientData` builds: `_page`, a fixed
`_limit` of ITEMS_PER_PAGE, and `status_code` when a filter is set. -/
def listPageParams (currentPage : Nat) (statusFilter : String) : List (String × String) :=
  [("_page", toString currentPage), ("_limit", toString ITEMS_PER_PAGE)] ++
    (if statusFilter == "" then [] else [("status_code", statusFilter)])

/-- `api.js getClients` builds `new URLSearchParams(params)`: the
parameters are forwarded verbatim, with no defaulting or clamping. -/
def getClientsQuery (params : List (String × String)) : List (String × String) :=
  params

/-- C8: no default-50 or clamp-to-200 logic exists: a requested limit of
500 is forwarded unchanged, an absent limit stays absent (json-server
receives no limit at all), and the list page always requests a fixed
page size of 2. -/
theorem list_limit_not_clamped :
    getClientsQuery [("_limit", "500")] = [("_limit", "500")] ∧
    getClientsQuery [] = [] ∧
    (listPageParams 1 "").lookup "_limit" = some "2" ∧
    (listPageParams 1 "").lookup "_limit" ≠ some "50" := by
  decide

/-! ## Fetch wrappers of `api.js` (list and reference-data paths) -/

/-- The outcome of a `fetch` call as observed by the wrappers: an OK
response with a body (and, for lists, the optional X-Total-Count
header), a non-OK HTTP response, or a thrown network error. -/
inductive FetchOutcome (α : Type) where
  | success (body : α) (totalCountHeader : Option Nat)
  | httpError (status : Nat)
  | networkError
  deriving Repr, DecidableEq

/-- The value `getClients` resolves with. -/
structure ClientsPage where
  data : List Client
  totalCount : Nat
  deriving Repr, DecidableEq

/-- `api.js getClients`: on a non-OK response it throws, and the catch
branch returns `\x7b data: [], totalCount: 0 \x7d`; on success,
`parseInt(totalCount, 10) || data.length` (a zero or missing header
falls back to the body length, since 0 is falsy). -/
def getClients (r : FetchOutcome (List Client)) : ClientsPage :=
  match r with
  | FetchOutcome.success body tc =>
    { data := body
      totalCount :=
        match tc with
        | some n => if n = 0 then body.length else n
        | none => body.length }
  | FetchOutcome.httpError _ => { data := [], totalCount := 0 }
  | FetchOutcome.networkError => { data := [], totalCount := 0 }

/-- A reference entry as the detail page reads it: `name` or
`display_text` may be absent depending on the kind. -/
structure RefEntry where
  code : String
  name : Option String
  display_text : Option String
  deriving Repr, DecidableEq

/-- The reference-data payload: each kind may be absent. -/
structure RefData where
  client_statuses : Option (List RefEntry)
  languages : Option (List RefEntry)
  pronouns : Option (List RefEntry)
  sex_values : Option (List RefEntry)
  deriving Repr, DecidableEq

/-- `api.js getReferenceData`: the body on success, `null` on any
failure (the catch branch returns null). -/
def getReferenceData (r : FetchOutcome RefData) : Option RefData :=
  match r with
  | FetchOutcome.success body _ => some body
  | FetchOutcome.httpError _ => none
  | FetchOutcome.networkError => none

/-- C9: a non-OK response or a network error during the list fetch
yields the successful-looking empty page, indistinguishable from a
genuinely empty store, and the reference-data fetch yields null; the
failures are swallowed, not surfaced. -/
theorem failures_swallowed :
    getClients (FetchOutcome.httpError 500) = { data := [], totalCount := 0 } ∧
    getClients FetchOutcome.networkError = { data := [], totalCount := 0 } ∧
    getClients (FetchOutcome.httpError 500) = getClients (FetchOutcome.success [] (some 0)) ∧
    getReferenceData (FetchOutcome.httpError 500) = none ∧
    getReferenceData FetchOutcome.networkError = none :=
  ⟨rfl, rfl, rfl, rfl, rfl⟩

/-! ## Display-name lookup (`ClientDetailPage.js`) -/

/-- `referenceData[type]` for the four kinds the page uses; any other
key is undefined. -/
def refField (r : RefData) (ty : String) : Option (List RefEntry) :=
  if ty == "client_statuses" then r.client_statuses
  else if ty == "languages" then r.languages
  else if ty == "pronouns" then r.pronouns
  else if ty == "sex_values" then r.sex_values
  else none

/-- JS `a || b` on possibly-absent strings: `a` unless it is falsy
(absent or empty). -/
def jsOrStr : Option String → Option String → Option String
  | some s, b => if s == "" then b else some s
  | none, b => b

/-- `getDisplayName` from `ClientDetailPage.js`: the raw code when the
reference data or the kind is absent or no entry matches, otherwise
`item.name || item.display_text`. -/
def getDisplayName (referenceData : Option RefData) (ty code : String) : Option String :=
  match referenceData with
  | none => some code
  | some rd =>
    match refField rd ty with
    | none => some code
    | some entries =>
      match entries.find? (fun i => i.code == code) with
      | some item => jsOrStr item.name item.display_text
      | none => some code

/-- C10: the display-name lookup is total: absent reference data, an
absent kind, or a code with no matching entry all yield the raw code
itself, so a record referencing a code outside the catalog (such as the
sentinel "deleted" status) still renders. -/
theorem getDisplayName_total (rd : RefData) (ty code : String) :
    getDisplayName none ty code = some code ∧
    (refField rd ty = none → getDisplayName (some rd) ty code = some code) ∧
    (∀ es, refField rd ty = some es →
      es.find? (fun i => i.code == code) = none →
      getDisplayName (some rd) ty code = some code) := by
  refine ⟨rfl, ?_, ?_⟩
  · intro h
    simp [getDisplayName, h]
  · intro es h1 h2
    simp [getDisplayName, h1, h2]

/-- A catalog entry for the "active" status. -/
def activeStatusEntry : RefEntry :=
  { code := "active", name := some "Active", display_text := none }

/-- A loaded catalog that does not contain the "deleted" sentinel and
has no languages list. -/
def sampleRefData : RefData :=
  { client_statuses := some [activeStatusEntry]
    languages := none
    pronouns := none
    sex_values := none }

/-- C10 witness: the lookup applied with absent reference data, an
absent kind, and the sentinel "deleted" code missing from the loaded
catalog. -/
theorem getDisplayName_total_witness :
    getDisplayName none "client_statuses" "deleted" = some "deleted" ∧
    getDisplayName (some sampleRefData) "languages" "en-NZ" = some "en-NZ" ∧
    getDisplayName (some sampleRefData) "client_statuses" "deleted" = some "deleted" :=
  ⟨(getDisplayName_total sampleRefData "client_statuses" "deleted").1,
    (getDisplayName_total sampleRefData "languages" "en-NZ").2.1 rfl,
    (getDisplayName_total sampleRefData "client_statuses" "deleted").2.2
      [activeStatusEntry] rfl rfl⟩

end ClientApp
